import Mathlib

/-
Verification development for the Google-Sheets job-application mailer
(send_mails.py).  The definitions below are a shallow embedding of the
script, translated function by function from the Python source.  External
effects (filesystem, the email-validator library, SMTP transport, random
choices, wall-clock time) are modelled as explicit environment parameters;
the orchestrator records its observable actions (send attempts, retry
sleeps, sheet write-backs) in an event trace.
-/

set_option maxRecDepth 4096
set_option linter.unusedVariables false

/-! ## Python string primitives

The script manipulates ordinary Python `str` values with `strip`, `lower`,
`upper`, `split`, `replace`, `os.path.splitext` and `os.path.join`.  These
are modelled over `List Char` so every definition reduces inside the
kernel.  (Python string methods are Unicode-aware; the script only ever
compares ASCII status constants and role names, for which the ASCII
`Char.toLower`/`Char.toUpper` agree with Python.) -/

/-- Python `str.strip()`: drop whitespace from both ends. -/
def pyStrip (s : String) : String :=
  String.mk (((s.toList.dropWhile Char.isWhitespace).reverse.dropWhile Char.isWhitespace).reverse)

/-- Python `str.lower()` (ASCII fragment). -/
def pyLower (s : String) : String :=
  String.mk (s.toList.map Char.toLower)

/-- Python `str.upper()` (ASCII fragment). -/
def pyUpper (s : String) : String :=
  String.mk (s.toList.map Char.toUpper)

/-- `normalize_key` from the script: `(s or "").strip().lower()`. -/
def normalize_key (s : String) : String :=
  pyLower (pyStrip s)

/-- Helper for Python `str.split()` with no argument: split on runs of
whitespace, discarding empty pieces.  `acc` is the current word reversed. -/
def pySplitAux : List Char → List Char → List (List Char)
  | [], acc => if acc.isEmpty then [] else [acc.reverse]
  | c :: cs, acc =>
    if c.isWhitespace then
      if acc.isEmpty then pySplitAux cs [] else acc.reverse :: pySplitAux cs []
    else pySplitAux cs (c :: acc)

/-- Python `str.split()` with no argument. -/
def pySplitWs (s : String) : List String :=
  (pySplitAux s.toList []).map String.mk

/-- Python `" ".join(words)`. -/
def joinSpace : List String → String
  | [] => ""
  | [w] => w
  | w :: ws => w ++ " " ++ joinSpace ws

/-- Python `name.replace("_", " ")` (single-character pattern). -/
def replaceUnderscore (s : String) : String :=
  String.mk (s.toList.map (fun c => if c = '_' then ' ' else c))

/-- Split a filename at its last dot: returns `(stem, ext)` where `ext`
starts with the final `'.'` of the name, or `([], [])`-style no-split when
there is no dot.  Recursion mirrors `rfind('.')`. -/
def dropLastExt : List Char → List Char × List Char
  | [] => ([], [])
  | c :: rest =>
    if '.' ∈ rest then
      let p := dropLastExt rest
      (c :: p.1, p.2)
    else if c = '.' then ([], c :: rest)
    else (c :: rest, [])

/-- Python `os.path.splitext(fname)[0]` for a bare filename (no path
separators, as produced by `os.listdir`): split at the last dot unless all
characters before it are dots (CPython leading-dot rule). -/
def splitextStem (fname : String) : String :=
  let p := dropLastExt fname.toList
  if p.2.isEmpty || p.1.all (· = '.') then fname
  else String.mk p.1

/-- Python `os.path.join(folder, fname)` for the cases the script hits:
an absolute second component wins; otherwise concatenate with a single
separator. -/
def path_join (folder fname : String) : String :=
  if ("/".toList).isPrefixOf fname.toList then fname
  else if folder = "" then fname
  else if ("/".toList).isSuffixOf folder.toList then folder ++ fname
  else folder ++ "/" ++ fname

/-- Python `s.replace(pat, rep)` on character lists, non-overlapping,
left to right; `fuel` bounds the recursion (callers pass the list length,
which suffices because each step consumes at least one character). -/
def replaceAllAux (pat rep : List Char) : Nat → List Char → List Char
  | _, [] => []
  | 0, l => l
  | fuel + 1, c :: cs =>
    if !pat.isEmpty && pat.isPrefixOf (c :: cs) then
      rep ++ replaceAllAux pat rep fuel ((c :: cs).drop pat.length)
    else
      c :: replaceAllAux pat rep fuel cs

/-- Python `s.replace(pat, rep)`. -/
def replaceAll (s pat rep : String) : String :=
  String.mk (replaceAllAux pat.toList rep.toList s.toList.length s.toList)

/-! ## External-world model

`FS` models the filesystem queries the script performs (`os.path.isfile`,
`os.path.isdir`, `os.listdir`, and reading a file's text).  It is a pure
snapshot: the run does not modify these files. -/

structure FS where
  isFile : String → Bool
  isDir : String → Bool
  listDir : String → List String
  content : String → String

/-! ## Email validator (third-party `email_validator` library)

`validate_email(address, check_deliverability=True)` either returns a
normalized address, raises `EmailNotValidError` (which includes
`EmailUndeliverableError`, the class raised when the deliverability/DNS
check rejects the domain), or raises some other exception (e.g. the DNS
resolver itself blowing up).  The syntax-only call
`validate_email(address, check_deliverability=False)` either returns a
normalized address or raises. -/

inductive StrictResult where
  | ok (normalized : String)
  | notValidError
  | otherError
deriving DecidableEq

inductive SyntaxResult where
  | ok (normalized : String)
  | err
deriving DecidableEq

structure EmailValidatorLib where
  strict : String → StrictResult
  syntaxOnly : String → SyntaxResult

/-- `validate_email_address` from the script.  `address` is always a
`str` at the single call site, so the `isinstance` guard reduces to the
emptiness checks. -/
def validate_email_address (lib : EmailValidatorLib) (address : String) :
    Bool × Option String :=
  if address = "" ∨ pyStrip address = "" then (false, none)
  else
    match lib.strict address with
    | .ok e => (true, some e)
    | .notValidError => (false, none)
    | .otherError =>
      match lib.syntaxOnly address with
      | .ok e => (true, some e)
      | .err => (false, none)

/-! ## Attachment selection -/

/-- Lowercased extension-stripped filename used by the heuristic scan:
`name = os.path.splitext(fname)[0].lower()`. -/
def heurName (fname : String) : String :=
  pyLower (splitextStem fname)

/-- The whitespace-normalized variant:
`" ".join(name.replace("_", " ").split())`. -/
def heurJoined (fname : String) : String :=
  joinSpace (pySplitWs (replaceUnderscore (heurName fname)))

/-- The `for fname in os.listdir(resume_folder)` loop body of
`select_resume`: first file whose stem matches the normalized key either
as `joined` or as raw `name`. -/
def heuristicScan (fs : FS) (key folder : String) : List String → Option String
  | [] => none
  | fname :: rest =>
    let fpath := path_join folder fname
    if !fs.isFile fpath then heuristicScan fs key folder rest
    else if key == heurJoined fname || key == heurName fname then some fpath
    else heuristicScan fs key folder rest

/-- `select_resume` from the script.  `resume_map` is the module-level
`RESUME_MAP` (keys already passed through `normalize_key`); `fs` stands
for the `os.path` queries.  `default_resume` is a `str` whose Python
truthiness (`if default_resume`) is the `≠ ""` test (the `None` case of
the `Optional[str]` annotation is modelled by `""`, which behaves
identically at the `if`). -/
def select_resume (resume_map : List (String × String)) (fs : FS)
    (job_role resume_folder default_resume : String) : Option String :=
  let key := normalize_key job_role
  let step1 : Option String :=
    match resume_map.lookup key with
    | some p => if fs.isFile p then some p else none
    | none => none
  match step1 with
  | some p => some p
  | none =>
    let step2 : Option String :=
      if fs.isDir resume_folder then
        heuristicScan fs key resume_folder (fs.listDir resume_folder)
      else none
    match step2 with
    | some p => some p
    | none =>
      if default_resume != "" && fs.isFile default_resume then some default_resume
      else none

/-- `select_cover_letter` from the script: mapped PDF if present on disk,
else the default text cover letter if present, else none.  The boolean is
`p.lower().endswith(".pdf")` for the mapped branch and `False` otherwise. -/
def select_cover_letter (cover_letter_map : List (String × String)) (fs : FS)
    (default_cover_letter_txt job_role : String) : Option String × Bool :=
  let key := normalize_key job_role
  let mapped : Option (String × Bool) :=
    match cover_letter_map.lookup key with
    | some p =>
      if fs.isFile p then some (p, (".pdf".toList).isSuffixOf (pyLower p).toList)
      else none
    | none => none
  match mapped with
  | some pb => (some pb.1, pb.2)
  | none =>
    if default_cover_letter_txt != "" && fs.isFile default_cover_letter_txt then
      (some default_cover_letter_txt, false)
    else (none, false)

/-! ## Message composition

`build_email_message` builds a multipart message.  All the failure points
are Python `open` calls or the explicit resume check, so every error the
function can raise in this model is a `FileNotFoundError`; the
`BuildError.fileNotFound` constructor records which path was missing.
Randomness (`random.choice` over templates and greetings) is passed in as
`pick`/`coin`. -/

inductive BuildError where
  | fileNotFound (path : String)
deriving DecidableEq

structure EmailMsg where
  fromLine : String
  toLine : String
  subject : String
  textBody : String
  htmlBody : String
  /-- content-ids of the inline images actually embedded. -/
  related : List String
  /-- source paths of the regular attachments, in attach order (the script
  attaches by basename; we record the full source path). -/
  attachments : List String
deriving DecidableEq

/-- The module-level `HTML_TEMPLATES` list. -/
def HTML_TEMPLATES : List String := ["templates/email_template.html"]

/-- `render_html_template` from the script: open one randomly chosen
template (`pick` stands for `random.choice`), substitute the three
placeholders; a missing template file makes `open` raise
`FileNotFoundError`.  Python `name or fallback` treats `""` as falsy. -/
def render_html_template (fs : FS) (pick : Nat) (job_role company : String)
    (name : Option String) : Except BuildError String :=
  let path := HTML_TEMPLATES.getD (pick % HTML_TEMPLATES.length) ""
  if fs.isFile path then
    let nameVal := match name with
      | some n => if n = "" then "Hiring Manager" else n
      | none => "Hiring Manager"
    let companyVal := if company = "" then "your company" else company
    let roleVal := if job_role = "" then "the role" else job_role
    let html := fs.content path
    let html := replaceAll html "\x7b\x7bName\x7d\x7d" nameVal
    let html := replaceAll html "\x7b\x7bCompany\x7d\x7d" companyVal
    let html := replaceAll html "\x7b\x7bJobRole\x7d\x7d" roleVal
    .ok html
  else .error (.fileNotFound path)

/-- The fixed inline-image table of `build_email_message`. -/
def inlineImages : List (String × String) :=
  [("image1", "image1.png"), ("image2", "image2.png"), ("image4", "image4.png")]

/-- `build_email_message` from the script.  `coin` models the
`random.choice(["Hi,", "Hello,"])` greeting pick (true picks the first).
Inline images are embedded only when present (missing ones are logged and
skipped); the resume is checked with `os.path.isfile` and raises
`FileNotFoundError` when absent; the cover letter, when a path is given,
is opened directly, so a missing cover file also raises
`FileNotFoundError`. -/
def build_email_message (fs : FS) (pick : Nat) (coin : Bool)
    (to_email : String) (to_name : Option String) (job_role company : String)
    (resume_path : String) (cover_path : Option String) (cover_is_pdf : Bool)
    (sender_name sender_email where_found : String) :
    Except BuildError EmailMsg :=
  let greeting :=
    match to_name with
    | some n =>
      if n ≠ "" then "Hello " ++ n ++ ","
      else if coin then "Hi," else "Hello,"
    | none => if coin then "Hi," else "Hello,"
  let text_body :=
    greeting ++ "\n\n" ++
    "I\x27m reaching out about the " ++ job_role ++ " role at " ++ company ++
    ". I saw the opening on " ++ where_found ++
    ". I\x27ve attached my resume and cover letter.\n\n" ++
    "Thanks for your time,\n" ++ sender_name
  match render_html_template fs pick job_role company to_name with
  | .error e => .error e
  | .ok html_body =>
    let related := (inlineImages.filter (fun p => fs.isFile p.2)).map (·.1)
    if !fs.isFile resume_path then .error (.fileNotFound resume_path)
    else
      let base : EmailMsg :=
        { fromLine := sender_name ++ " <" ++ sender_email ++ ">"
          toLine := to_email
          subject := "Application for " ++ job_role ++ " - " ++ sender_name
          textBody := text_body
          htmlBody := html_body
          related := related
          attachments := [resume_path] }
    -- Python `if cover_path:` — None and "" are both falsy
      match cover_path with
      | some cp =>
        if cp ≠ "" then
          if fs.isFile cp then .ok { base with attachments := [resume_path, cp] }
          else .error (.fileNotFound cp)
        else .ok base
      | none => .ok base

/-! ## Data model and orchestrator

A `Row` is one sheet record with the columns the script reads (`JobRole`,
`CompanyName`, `Email`, optional `ContactName` and `Location`, and
`Status`; absent optional cells read as `""`, which is also how
`read_sheet_to_dataframe` materializes a missing `Status` column).  The
orchestrator's observable actions are recorded as `Event`s:
`sendAttempt idx n` for the n-th (1-based) `send_email` call for row
`idx`, `sleepRetry idx` for the fixed retry delay, `writeSheet t` for a
full-table write-back. -/

structure Row where
  jobRole : String
  companyName : String
  contactName : String
  email : String
  location : String
  status : String
deriving DecidableEq

def Row.empty : Row := ⟨"", "", "", "", "", ""⟩

inductive Event where
  | sendAttempt (idx attempt : Nat)
  | sleepRetry (idx : Nat)
  | writeSheet (table : List Row)
deriving DecidableEq

/-- `df.loc[idx]` on the in-memory table (indices are always in range in
the script; out of range yields the empty row). -/
def getRow : List Row → Nat → Row
  | [], _ => Row.empty
  | r :: _, 0 => r
  | _ :: rs, n + 1 => getRow rs n

/-- `df.at[idx, "Status"] = s`. -/
def setStatus : List Row → Nat → String → List Row
  | [], _, _ => []
  | r :: rs, 0, s => { r with status := s } :: rs
  | r :: rs, n + 1, s => r :: setStatus rs n s

/-- Result of the per-row send/retry loop: whether a send succeeded, the
number of attempts made, the number of retry sleeps performed, and the
events emitted (appended to the given prefix). -/
structure SendOutcome where
  sent : Bool
  attempts : Nat
  sleeps : Nat
  events : List Event
deriving DecidableEq

/-- The `while attempt < CONFIG["max_retries"] and not sent` loop.
`transport a` tells whether the a-th (1-based) `send_email` call
succeeds.  `fuel` is spent one unit per iteration; callers pass
`max_retries`, which never runs out before the guard `attempt < maxR`
fails (each iteration increments `attempt`). -/
def sendLoopAux (transport : Nat → Bool) (maxR idx : Nat) :
    Nat → Nat → Nat → List Event → SendOutcome
  | 0, attempt, sleeps, evs => ⟨false, attempt, sleeps, evs⟩
  | fuel + 1, attempt, sleeps, evs =>
    if attempt < maxR then
      let a := attempt + 1
      if transport a then ⟨true, a, sleeps, evs ++ [.sendAttempt idx a]⟩
      else if a < maxR then
        sendLoopAux transport maxR idx fuel a (sleeps + 1)
          (evs ++ [.sendAttempt idx a, .sleepRetry idx])
      else ⟨false, a, sleeps, evs ++ [.sendAttempt idx a]⟩
    else ⟨false, attempt, sleeps, evs⟩

/-- The send/retry loop for row `idx`, started with `attempt = 0`,
`sent = False`. -/
def sendLoop (transport : Nat → Bool) (maxR idx : Nat) : SendOutcome :=
  sendLoopAux transport maxR idx maxR 0 0 []

/-- Run-time environment of `process_sheet_and_send`: configuration
(`RESUME_MAP`, `COVER_LETTER_MAP` and the relevant `CONFIG` entries), the
filesystem snapshot, the email-validator library behavior, per-row SMTP
transport outcomes (`transport idx a` = does the a-th send for row `idx`
succeed), per-row randomness, and the timestamp string used for the
invalid-email side log. -/
structure Env where
  fs : FS
  lib : EmailValidatorLib
  resume_map : List (String × String)
  cover_letter_map : List (String × String)
  default_cover_letter_txt : String
  resumes_folder : String
  default_resume : String
  max_retries : Nat
  sender_name : String
  sender_email : String
  smtp_username : String
  where_found : String
  transport : Nat → Nat → Bool
  pickTemplate : Nat → Nat
  coin : Nat → Bool
  now : String

/-- Orchestrator state: the in-memory table, the in-run dedup key set
(`processed_keys`; insertion order kept, membership is what matters), the
event trace, and the `invalid_emails.log` side channel
(timestamp, original row index, stripped email). -/
structure OState where
  df : List Row
  processedKeys : List (String × String × String)
  trace : List Event
  invalidLog : List (String × Nat × String)
deriving DecidableEq

/-- The combined status gate of the row loop, on the stripped status:
`status.upper() == "SENT"` skips, and so does any non-empty status whose
uppercase form is not `PENDING`/`TO_SEND` (the two `continue`s at the top
of the loop body). -/
def row_is_skipped (status : String) : Bool :=
  pyUpper status == "SENT" ||
    (status != "" && !(["", "PENDING", "TO_SEND"].contains (pyUpper status)))

/-- The in-run dedup key of a row:
`(email.lower(), job.lower(), company.lower())` of the stripped fields. -/
def rowKey (r : Row) : String × String × String :=
  (pyLower (pyStrip r.email), pyLower (pyStrip r.jobRole), pyLower (pyStrip r.companyName))

/-- `CONFIG["sender_email"] or CONFIG["smtp_username"]` (Python `or` on
strings: the first operand unless it is empty). -/
def effective_sender_email (env : Env) : String :=
  if env.sender_email ≠ "" then env.sender_email else env.smtp_username

/-- `to_name=contact if contact else None` at the build call site. -/
def contactOpt (contact : String) : Option String :=
  if contact ≠ "" then some contact else none

/-- One iteration of the `for idx in range(len(df))` loop of
`process_sheet_and_send`: status gate, in-run dedup, resume selection,
cover-letter selection, message build, send with retries, status update
and write-back.  Each branch mirrors the corresponding `continue` path of
the source. -/
def processRow (env : Env) (st : OState) (idx : Nat) : OState :=
  let row := getRow st.df idx
  let job := pyStrip row.jobRole
  let company := pyStrip row.companyName
  let contact := pyStrip row.contactName
  let email := pyStrip row.email
  let status := pyStrip row.status
  if row_is_skipped status then st
  else
    let key := (pyLower email, pyLower job, pyLower company)
    if key ∈ st.processedKeys then
      { st with df := setStatus st.df idx "SKIPPED_DUPLICATE" }
    else
      match select_resume env.resume_map env.fs job env.resumes_folder env.default_resume with
      | none =>
        let df2 := setStatus st.df idx "SKIPPED_NO_RESUME"
        { st with
            df := df2
            trace := st.trace ++ [.writeSheet df2]
            processedKeys := st.processedKeys ++ [key] }
      | some resume_path =>
        let cover := select_cover_letter env.cover_letter_map env.fs
          env.default_cover_letter_txt job
        match build_email_message env.fs (env.pickTemplate idx) (env.coin idx)
            email (contactOpt contact) job company
            resume_path cover.1 cover.2 env.sender_name
            (effective_sender_email env) env.where_found with
        | .error _ =>
          let df2 := setStatus st.df idx "FAILED_BUILD_MESSAGE"
          { st with
              df := df2
              trace := st.trace ++ [.writeSheet df2]
              processedKeys := st.processedKeys ++ [key] }
        | .ok _ =>
          let r := sendLoop (env.transport idx) env.max_retries idx
          let df2 := setStatus st.df idx (if r.sent then "SENT" else "FAILED")
          { st with
              df := df2
              trace := st.trace ++ r.events ++ [.writeSheet df2]
              processedKeys := st.processedKeys ++ [key] }

/-- Process the given row indices in order. -/
def runFrom (env : Env) : OState → List Nat → OState
  | st, [] => st
  | st, i :: rest => runFrom env (processRow env st i) rest

/-- The email-validation pre-pass (`for i, row in df.iterrows()` plus the
drop): returns the cleaned table (valid rows in order, `Email` replaced by
the normalized address) and the invalid `(original index, stripped email)`
pairs, starting the index count at `i`. -/
def vpAux (lib : EmailValidatorLib) : Nat → List Row → List Row × List (Nat × String)
  | _, [] => ([], [])
  | i, r :: rest =>
    let v := validate_email_address lib (pyStrip r.email)
    let p := vpAux lib (i + 1) rest
    if v.1 then ({ r with email := v.2.getD "" } :: p.1, p.2)
    else (p.1, (i, pyStrip r.email) :: p.2)

/-- The whole validation pre-pass over the freshly read table (indices
start at 0 after `read_sheet_to_dataframe`). -/
def validationPass (lib : EmailValidatorLib) (df : List Row) :
    List Row × List (Nat × String) :=
  vpAux lib 0 df

/-- `process_sheet_and_send` from the point the table has been read (the
sheets-service setup and the required-columns check are I/O scaffolding
outside this model): empty table returns immediately; otherwise run the
validation pre-pass, log and drop invalid rows (writing the cleaned table
back only when something was dropped, as in the source), then process
every remaining row in order. -/
def process_sheet_and_send (env : Env) (df0 : List Row) : OState :=
  if df0.isEmpty then ⟨df0, [], [], []⟩
  else
    let p := validationPass env.lib df0
    let df1 := p.1
    let invalid := p.2
    let st0 : OState :=
      { df := df1
        processedKeys := []
        trace := if invalid.isEmpty then [] else [.writeSheet df1]
        invalidLog := invalid.map (fun q => (env.now, q.1, q.2)) }
    runFrom env st0 (List.range df1.length)

/-- `enumerate(df, start=i)`. -/
def enumIdx : Nat → List Row → List (Nat × Row)
  | _, [] => []
  | i, r :: rest => (i, r) :: enumIdx (i + 1) rest

/-! ## Concrete fixtures for witnesses, counterexamples and scenario runs

`fsT` is a filesystem where only the default resume and the single HTML
template exist; with an empty resume map and empty cover map every role
resolves to the default resume and no cover letter, so that an eligible
row reaches the send loop. -/

def fsT : FS :=
  { isFile := fun p => p == "r.pdf" || p == "templates/email_template.html"
    isDir := fun _ => false
    listDir := fun _ => []
    content := fun _ => "" }

/-- An email-validator model that accepts every address as-is. -/
def libOk : EmailValidatorLib :=
  { strict := fun a => .ok a, syntaxOnly := fun a => .ok a }

/-- Environment with transport behavior `t` (same for every row) and
`max_retries = m`. -/
def envSend (t : Nat → Bool) (m : Nat) : Env :=
  { fs := fsT
    lib := libOk
    resume_map := []
    cover_letter_map := []
    default_cover_letter_txt := "cover_letters/default_cover.txt"
    resumes_folder := "resumes"
    default_resume := "r.pdf"
    max_retries := m
    sender_name := "S"
    sender_email := "s@x.com"
    smtp_username := "s@x.com"
    where_found := "W"
    transport := fun _ a => t a
    pickTemplate := fun _ => 0
    coin := fun _ => true
    now := "T" }

/-- The environment of the happy-path scenarios: every send succeeds. -/
def envT : Env := envSend (fun _ => true) 3

/-- Transport that fails on attempts 1 and 2 and succeeds from attempt 3. -/
def tFailTwice : Nat → Bool := fun a => decide (3 ≤ a)

/-- Transport that always fails. -/
def tAlwaysFail : Nat → Bool := fun _ => false

def rowElig : Row :=
  { jobRole := "dev", companyName := "acme", contactName := "", email := "a@b.com"
    location := "", status := "" }

def rowSent : Row := { rowElig with status := "SENT" }

/-- A one-row orchestrator state. -/
def stRow (r : Row) : OState :=
  { df := [r], processedKeys := [], trace := [], invalidLog := [] }

/-- Filesystem for the heuristic-scan counterexample: the resumes folder
contains a single file whose stem is exactly the (underscored) role, plus
a default resume. -/
def fsUnderscore : FS :=
  { isFile := fun p => p == "resumes/a_b.pdf" || p == "resumes/default.pdf"
    isDir := fun p => p == "resumes"
    listDir := fun p => if p == "resumes" then ["a_b.pdf"] else []
    content := fun _ => "" }

/-- Validator-library behavior for the C2 counterexample.  In the
email-validator package, a failed deliverability check raises
`EmailUndeliverableError`, which is a subclass of `EmailNotValidError`:
for a syntactically valid address whose domain does not resolve, the
strict call raises `EmailNotValidError` while the syntax-only call
succeeds.  This is exactly the `strict = notValidError, syntaxOnly = ok`
combination below. -/
def libUndeliverable : EmailValidatorLib :=
  { strict := fun _ => .notValidError
    syntaxOnly := fun a => .ok a }

/-- A validator model where the strict call blows up with a
non-`EmailNotValidError` exception (say, the DNS resolver raising) while
syntax-only validation succeeds. -/
def libDnsDown : EmailValidatorLib :=
  { strict := fun _ => .otherError
    syntaxOnly := fun a => .ok a }

/-- Filesystem in which the resume is missing but the template exists. -/
def fsNoResume : FS :=
  { isFile := fun p => p == "templates/email_template.html"
    isDir := fun _ => false
    listDir := fun _ => []
    content := fun _ => "" }

/-- A validator-library model that rejects the literal address "bad" in
both modes and accepts everything else unchanged. -/
def libRejectBad : EmailValidatorLib :=
  { strict := fun a => if a == "bad" then .notValidError else .ok a
    syntaxOnly := fun a => if a == "bad" then .err else .ok a }

def rowBad : Row := { rowElig with email := "bad" }

def envInv : Env := { envT with lib := libRejectBad }

/-- Eligible row sharing `rowElig`'s dedup key after normalization
(upper-case, extra spaces, PENDING status). -/
def rowElig2 : Row :=
  { jobRole := " DEV ", companyName := "Acme", contactName := "", email := "A@B.com"
    location := "", status := "PENDING" }

example : pyStrip "  a b  " = "a b" := by decide
example : normalize_key " Backend Developer " = "backend developer" := by decide
example : splitextStem "Sahil_Bhanushali-M.pdf" = "Sahil_Bhanushali-M" := by decide
example : splitextStem ".bashrc" = ".bashrc" := by decide
example : heurJoined "backend_developer.pdf" = "backend developer" := by decide
example : path_join "resumes" "a.pdf" = "resumes/a.pdf" := by decide

/-! ## Basic facts -/

theorem pyStrip_empty : pyStrip "" = "" := by decide

theorem row_is_skipped_ne_empty (s : String) (h : row_is_skipped (pyStrip s) = true) :
    s ≠ "" := by
  intro he
  rw [he, pyStrip_empty] at h
  exact absurd h (by decide)

/-! ## Basic lemmas about table updates -/

theorem length_setStatus (df : List Row) (i : Nat) (s : String) :
    (setStatus df i s).length = df.length := by
  induction df generalizing i with
  | nil => simp [setStatus]
  | cons r rs ih =>
    cases i with
    | zero => simp [setStatus]
    | succ n => simp [setStatus, ih]

theorem getRow_setStatus_ne (df : List Row) (i j : Nat) (s : String) (h : j ≠ i) :
    getRow (setStatus df i s) j = getRow df j := by
  induction df generalizing i j with
  | nil => simp [setStatus]
  | cons r rs ih =>
    cases i with
    | zero =>
      cases j with
      | zero => exact absurd rfl h
      | succ m => simp [setStatus, getRow]
    | succ n =>
      cases j with
      | zero => simp [setStatus, getRow]
      | succ m =>
        simp only [setStatus, getRow]
        exact ih n m (by omega)

theorem getRow_setStatus_self (df : List Row) (i : Nat) (s : String)
    (h : i < df.length) :
    getRow (setStatus df i s) i = { getRow df i with status := s } := by
  induction df generalizing i with
  | nil => simp at h
  | cons r rs ih =>
    cases i with
    | zero => simp [setStatus, getRow]
    | succ n =>
      simp only [setStatus, getRow]
      exact ih n (by simpa using h)

theorem getRow_setStatus_email (df : List Row) (i j : Nat) (s : String) :
    (getRow (setStatus df i s) j).email = (getRow df j).email := by
  induction df generalizing i j with
  | nil => simp [setStatus]
  | cons r rs ih =>
    cases i with
    | zero =>
      cases j with
      | zero => simp [setStatus, getRow]
      | succ m => simp [setStatus, getRow]
    | succ n =>
      cases j with
      | zero => simp [setStatus, getRow]
      | succ m => simp only [setStatus, getRow]; exact ih n m

/-! ## The send/retry loop -/

theorem sendLoopAux_spec (t : Nat → Bool) (maxR idx : Nat) :
    ∀ fuel attempt sleeps evs, attempt + fuel = maxR →
    (attempt ≤ (sendLoopAux t maxR idx fuel attempt sleeps evs).attempts ∧
      (sendLoopAux t maxR idx fuel attempt sleeps evs).attempts ≤ maxR) ∧
    ((sendLoopAux t maxR idx fuel attempt sleeps evs).sent = true →
      attempt < (sendLoopAux t maxR idx fuel attempt sleeps evs).attempts ∧
      t (sendLoopAux t maxR idx fuel attempt sleeps evs).attempts = true ∧
      ∀ k, attempt < k → k < (sendLoopAux t maxR idx fuel attempt sleeps evs).attempts →
        t k = false) ∧
    ((sendLoopAux t maxR idx fuel attempt sleeps evs).sent = false →
      (sendLoopAux t maxR idx fuel attempt sleeps evs).attempts = maxR ∧
      ∀ k, attempt < k → k ≤ maxR → t k = false) ∧
    (sendLoopAux t maxR idx fuel attempt sleeps evs).sleeps =
      sleeps + (if (sendLoopAux t maxR idx fuel attempt sleeps evs).sent then
        (sendLoopAux t maxR idx fuel attempt sleeps evs).attempts - attempt - 1
      else maxR - attempt - 1) := by
  intro fuel
  induction fuel with
  | zero =>
    intro attempt sleeps evs hinv
    have hred : sendLoopAux t maxR idx 0 attempt sleeps evs
        = ⟨false, attempt, sleeps, evs⟩ := by simp [sendLoopAux]
    have hS : (sendLoopAux t maxR idx 0 attempt sleeps evs).sent = false := by rw [hred]
    have hA : (sendLoopAux t maxR idx 0 attempt sleeps evs).attempts = attempt := by rw [hred]
    have hSl : (sendLoopAux t maxR idx 0 attempt sleeps evs).sleeps = sleeps := by rw [hred]
    rw [hS, hA, hSl]
    refine ⟨⟨le_refl _, by omega⟩, by simp, fun _ => ⟨by omega, fun k hk hk2 => by omega⟩, ?_⟩
    simp
    omega
  | succ fuel ih =>
    intro attempt sleeps evs hinv
    have hlt : attempt < maxR := by omega
    by_cases hta : t (attempt + 1) = true
    · have hred : sendLoopAux t maxR idx (fuel + 1) attempt sleeps evs
          = ⟨true, attempt + 1, sleeps, evs ++ [.sendAttempt idx (attempt + 1)]⟩ := by
        simp [sendLoopAux, hlt, hta]
      have hS : (sendLoopAux t maxR idx (fuel + 1) attempt sleeps evs).sent = true := by
        rw [hred]
      have hA : (sendLoopAux t maxR idx (fuel + 1) attempt sleeps evs).attempts
          = attempt + 1 := by rw [hred]
      have hSl : (sendLoopAux t maxR idx (fuel + 1) attempt sleeps evs).sleeps = sleeps := by
        rw [hred]
      rw [hS, hA, hSl]
      refine ⟨⟨by omega, by omega⟩, fun _ => ⟨by omega, hta, fun k hk hk2 => by omega⟩,
        by simp, ?_⟩
      simp
    · have hta' : t (attempt + 1) = false := by
        cases h : t (attempt + 1) with
        | false => rfl
        | true => exact absurd h hta
      by_cases hlt2 : attempt + 1 < maxR
      · have hred : sendLoopAux t maxR idx (fuel + 1) attempt sleeps evs
            = sendLoopAux t maxR idx fuel (attempt + 1) (sleeps + 1)
                (evs ++ [.sendAttempt idx (attempt + 1), .sleepRetry idx]) := by
          simp [sendLoopAux, hlt, hta', hlt2]
        rw [hred]
        have hinv2 : attempt + 1 + fuel = maxR := by omega
        obtain ⟨⟨hle1, hle2⟩, hsent, hfail, hsleep⟩ := ih (attempt + 1) (sleeps + 1)
          (evs ++ [.sendAttempt idx (attempt + 1), .sleepRetry idx]) hinv2
        refine ⟨⟨by omega, hle2⟩, ?_, ?_, ?_⟩
        · intro hs
          obtain ⟨ha, hb, hc⟩ := hsent hs
          refine ⟨by omega, hb, fun k hk hk2 => ?_⟩
          rcases Nat.lt_or_ge k (attempt + 2) with hk3 | hk3
          · have hke : k = attempt + 1 := by omega
            rwa [hke]
          · exact hc k (by omega) hk2
        · intro hs
          obtain ⟨ha, hb⟩ := hfail hs
          refine ⟨ha, fun k hk hk2 => ?_⟩
          rcases Nat.lt_or_ge k (attempt + 2) with hk3 | hk3
          · have hke : k = attempt + 1 := by omega
            rwa [hke]
          · exact hb k (by omega) hk2
        · rw [hsleep]
          by_cases hs : (sendLoopAux t maxR idx fuel (attempt + 1) (sleeps + 1)
              (evs ++ [.sendAttempt idx (attempt + 1), .sleepRetry idx])).sent = true
          · have hgt := (hsent hs).1
            simp only [hs, if_true]
            omega
          · have hs' : (sendLoopAux t maxR idx fuel (attempt + 1) (sleeps + 1)
                (evs ++ [.sendAttempt idx (attempt + 1), .sleepRetry idx])).sent = false := by
              cases h : (sendLoopAux t maxR idx fuel (attempt + 1) (sleeps + 1)
                  (evs ++ [.sendAttempt idx (attempt + 1), .sleepRetry idx])).sent with
              | false => rfl
              | true => exact absurd h hs
            simp only [hs', Bool.false_eq_true, if_false]
            omega
      · have heq : attempt + 1 = maxR := by omega
        have hred : sendLoopAux t maxR idx (fuel + 1) attempt sleeps evs
            = ⟨false, attempt + 1, sleeps, evs ++ [.sendAttempt idx (attempt + 1)]⟩ := by
          simp [sendLoopAux, hlt, hta', hlt2]
        have hS : (sendLoopAux t maxR idx (fuel + 1) attempt sleeps evs).sent = false := by
          rw [hred]
        have hA : (sendLoopAux t maxR idx (fuel + 1) attempt sleeps evs).attempts
            = attempt + 1 := by rw [hred]
        have hSl : (sendLoopAux t maxR idx (fuel + 1) attempt sleeps evs).sleeps = sleeps := by
          rw [hred]
        rw [hS, hA, hSl]
        refine ⟨⟨by omega, by omega⟩, by simp, fun _ => ⟨heq, fun k hk hk2 => ?_⟩, ?_⟩
        · have hke : k = attempt + 1 := by omega
          rwa [hke]
        · simp
          omega

/-- Top-level characterization of `sendLoop`: at most `maxR` attempts;
on success the last attempt is the first successful one; on failure all
`maxR` attempts were made and every one failed; the number of retry
sleeps is one per failed attempt except a failed final attempt. -/
theorem sendLoop_spec (t : Nat → Bool) (maxR idx : Nat) :
    (sendLoop t maxR idx).attempts ≤ maxR ∧
    ((sendLoop t maxR idx).sent = true →
      0 < (sendLoop t maxR idx).attempts ∧
      t (sendLoop t maxR idx).attempts = true ∧
      ∀ k, 0 < k → k < (sendLoop t maxR idx).attempts → t k = false) ∧
    ((sendLoop t maxR idx).sent = false →
      (sendLoop t maxR idx).attempts = maxR ∧
      ∀ k, 0 < k → k ≤ maxR → t k = false) ∧
    (sendLoop t maxR idx).sleeps =
      (if (sendLoop t maxR idx).sent then (sendLoop t maxR idx).attempts - 1
        else maxR - 1) := by
  have h := sendLoopAux_spec t maxR idx maxR 0 0 [] (by omega)
  obtain ⟨⟨h1, h2⟩, h3, h4, h5⟩ := h
  exact ⟨h2, h3, h4, by simpa using h5⟩

theorem sendLoopAux_events (t : Nat → Bool) (maxR idx : Nat) :
    ∀ fuel attempt sleeps evs e,
      e ∈ (sendLoopAux t maxR idx fuel attempt sleeps evs).events →
      e ∈ evs ∨ (∃ a, e = .sendAttempt idx a) ∨ e = .sleepRetry idx := by
  intro fuel
  induction fuel with
  | zero =>
    intro attempt sleeps evs e he
    simp only [sendLoopAux] at he
    exact Or.inl he
  | succ fuel ih =>
    intro attempt sleeps evs e he
    by_cases hlt : attempt < maxR
    · by_cases hta : t (attempt + 1) = true
      · have hred : sendLoopAux t maxR idx (fuel + 1) attempt sleeps evs
            = ⟨true, attempt + 1, sleeps, evs ++ [.sendAttempt idx (attempt + 1)]⟩ := by
          simp [sendLoopAux, hlt, hta]
        rw [hred] at he
        simp only [List.mem_append, List.mem_singleton] at he
        rcases he with he | he
        · exact Or.inl he
        · exact Or.inr (Or.inl ⟨attempt + 1, he⟩)
      · have hta' : t (attempt + 1) = false := by
          cases h : t (attempt + 1) with
          | false => rfl
          | true => exact absurd h hta
        by_cases hlt2 : attempt + 1 < maxR
        · have hred : sendLoopAux t maxR idx (fuel + 1) attempt sleeps evs
              = sendLoopAux t maxR idx fuel (attempt + 1) (sleeps + 1)
                  (evs ++ [.sendAttempt idx (attempt + 1), .sleepRetry idx]) := by
            simp [sendLoopAux, hlt, hta', hlt2]
          rw [hred] at he
          rcases ih (attempt + 1) (sleeps + 1)
              (evs ++ [.sendAttempt idx (attempt + 1), .sleepRetry idx]) e he with h | h
          · simp only [List.mem_append, List.mem_cons, List.mem_singleton,
              List.not_mem_nil] at h
            rcases h with h | h | h
            · exact Or.inl h
            · exact Or.inr (Or.inl ⟨attempt + 1, h⟩)
            · rcases h with h | h
              · exact Or.inr (Or.inr h)
              · simp at h
          · exact Or.inr h
        · have hred : sendLoopAux t maxR idx (fuel + 1) attempt sleeps evs
              = ⟨false, attempt + 1, sleeps, evs ++ [.sendAttempt idx (attempt + 1)]⟩ := by
            simp [sendLoopAux, hlt, hta', hlt2]
          rw [hred] at he
          simp only [List.mem_append, List.mem_singleton] at he
          rcases he with he | he
          · exact Or.inl he
          · exact Or.inr (Or.inl ⟨attempt + 1, he⟩)
    · have hred : sendLoopAux t maxR idx (fuel + 1) attempt sleeps evs
          = ⟨false, attempt, sleeps, evs⟩ := by
        simp [sendLoopAux, hlt]
      rw [hred] at he
      exact Or.inl he

/-! ## Per-row processing lemmas -/

/-- A row skipped by the status gate is left completely untouched: no
table change, no key registration, no events. -/
theorem processRow_skipped (env : Env) (st : OState) (idx : Nat)
    (h : row_is_skipped (pyStrip (getRow st.df idx).status) = true) :
    processRow env st idx = st := by
  simp [processRow, h]

/-- An eligible row whose dedup key was already registered is marked
`SKIPPED_DUPLICATE` and nothing else happens: no write-back event, no new
key, no send attempt. -/
theorem processRow_dup (env : Env) (st : OState) (idx : Nat)
    (h : row_is_skipped (pyStrip (getRow st.df idx).status) = false)
    (hk : rowKey (getRow st.df idx) ∈ st.processedKeys) :
    processRow env st idx = { st with df := setStatus st.df idx "SKIPPED_DUPLICATE" } := by
  simp only [rowKey] at hk
  simp [processRow, h, hk]

theorem processRow_keys_mono (env : Env) (st : OState) (idx : Nat) (k : String × String × String)
    (h : k ∈ st.processedKeys) :
    k ∈ (processRow env st idx).processedKeys := by
  simp only [processRow]
  split
  · exact h
  · split
    · exact h
    · split
      · simp [h]
      · split
        · simp [h]
        · simp [h]

/-- After an eligible row is processed its dedup key is registered
(either it already was, or the branch taken appends it). -/
theorem processRow_keys_after (env : Env) (st : OState) (idx : Nat)
    (h : row_is_skipped (pyStrip (getRow st.df idx).status) = false) :
    rowKey (getRow st.df idx) ∈ (processRow env st idx).processedKeys := by
  by_cases hk : rowKey (getRow st.df idx) ∈ st.processedKeys
  · rw [processRow_dup env st idx h hk]
    exact hk
  · have hk' : (pyLower (pyStrip (getRow st.df idx).email),
        pyLower (pyStrip (getRow st.df idx).jobRole),
        pyLower (pyStrip (getRow st.df idx).companyName)) ∉ st.processedKeys := by
      simpa [rowKey] using hk
    simp only [processRow]
    simp only [h, Bool.false_eq_true, if_false, rowKey]
    split
    · simp_all
    · split
      · simp
      · split
        · simp
        · simp

theorem processRow_df_ne (env : Env) (st : OState) (idx j : Nat) (hj : j ≠ idx) :
    getRow (processRow env st idx).df j = getRow st.df j := by
  simp only [processRow]
  split
  · rfl
  · split
    · exact getRow_setStatus_ne _ _ _ _ hj
    · split
      · exact getRow_setStatus_ne _ _ _ _ hj
      · split
        · exact getRow_setStatus_ne _ _ _ _ hj
        · exact getRow_setStatus_ne _ _ _ _ hj

theorem processRow_length (env : Env) (st : OState) (idx : Nat) :
    (processRow env st idx).df.length = st.df.length := by
  simp only [processRow]
  split
  · rfl
  · split
    · exact length_setStatus _ _ _
    · split
      · exact length_setStatus _ _ _
      · split
        · exact length_setStatus _ _ _
        · exact length_setStatus _ _ _

theorem processRow_trace_append (env : Env) (st : OState) (idx : Nat) :
    ∃ ev, (processRow env st idx).trace = st.trace ++ ev := by
  simp only [processRow]
  split
  · exact ⟨[], by simp⟩
  · split
    · exact ⟨[], by simp⟩
    · split
      · exact ⟨_, rfl⟩
      · split
        · exact ⟨_, rfl⟩
        · exact ⟨_, List.append_assoc _ _ _⟩

theorem processRow_email (env : Env) (st : OState) (idx j : Nat) :
    (getRow (processRow env st idx).df j).email = (getRow st.df j).email := by
  simp only [processRow]
  split
  · rfl
  · split
    · exact getRow_setStatus_email _ _ _ _
    · split
      · exact getRow_setStatus_email _ _ _ _
      · split
        · exact getRow_setStatus_email _ _ _ _
        · exact getRow_setStatus_email _ _ _ _

/-- Send-attempt events in the trace after processing row `idx` either
were already there or belong to row `idx` itself. -/
theorem processRow_trace_tag (env : Env) (st : OState) (idx j a : Nat)
    (h : Event.sendAttempt j a ∈ (processRow env st idx).trace) :
    Event.sendAttempt j a ∈ st.trace ∨ j = idx := by
  revert h
  simp only [processRow]
  split
  · exact fun h => Or.inl h
  · split
    · exact fun h => Or.inl h
    · split
      · intro h
        simp only [List.mem_append, List.mem_singleton] at h
        rcases h with h | h
        · exact Or.inl h
        · simp at h
      · split
        · intro h
          simp only [List.mem_append, List.mem_singleton] at h
          rcases h with h | h
          · exact Or.inl h
          · simp at h
        · intro h
          simp only [List.mem_append, List.mem_singleton] at h
          rcases h with (h | h) | h
          · exact Or.inl h
          · rcases sendLoopAux_events _ _ _ _ _ _ _ _ h with h2 | h2 | h2
            · simp at h2
            · obtain ⟨a2, ha2⟩ := h2
              simp only [Event.sendAttempt.injEq] at ha2
              exact Or.inr ha2.1
            · simp at h2
          · simp at h

/-- After its own iteration, a row's status is never the empty string:
skipped rows had a non-empty status already, and every processed row gets
one of the outcome constants. -/
theorem processRow_status_filled (env : Env) (st : OState) (idx : Nat)
    (hlen : idx < st.df.length) :
    (getRow (processRow env st idx).df idx).status ≠ "" := by
  by_cases hskip : row_is_skipped (pyStrip (getRow st.df idx).status) = true
  · rw [processRow_skipped env st idx hskip]
    exact row_is_skipped_ne_empty _ hskip
  · have hskip' : row_is_skipped (pyStrip (getRow st.df idx).status) = false := by
      cases h : row_is_skipped (pyStrip (getRow st.df idx).status) with
      | false => rfl
      | true => exact absurd h hskip
    simp only [processRow, hskip', Bool.false_eq_true, if_false]
    split
    · rw [getRow_setStatus_self _ _ _ hlen]
      simp
    · split
      · rw [getRow_setStatus_self _ _ _ hlen]
        simp
      · split
        · rw [getRow_setStatus_self _ _ _ hlen]
          simp
        · rw [getRow_setStatus_self _ _ _ hlen]
          by_cases hs : (sendLoop (env.transport idx) env.max_retries idx).sent = true
          · simp [hs]
          · simp [hs]

/-! ## Lemmas about the row loop -/

theorem runFrom_append (env : Env) (st : OState) (l1 l2 : List Nat) :
    runFrom env st (l1 ++ l2) = runFrom env (runFrom env st l1) l2 := by
  induction l1 generalizing st with
  | nil => simp [runFrom]
  | cons i rest ih => simp [runFrom, ih]

theorem runFrom_keys_mono (env : Env) (st : OState) (l : List Nat)
    (k : String × String × String) (h : k ∈ st.processedKeys) :
    k ∈ (runFrom env st l).processedKeys := by
  induction l generalizing st with
  | nil => exact h
  | cons i rest ih => exact ih _ (processRow_keys_mono env st i k h)

theorem runFrom_length (env : Env) (st : OState) (l : List Nat) :
    (runFrom env st l).df.length = st.df.length := by
  induction l generalizing st with
  | nil => rfl
  | cons i rest ih => rw [runFrom, ih, processRow_length]

theorem runFrom_df_ne (env : Env) (st : OState) (l : List Nat) (j : Nat)
    (h : ∀ x ∈ l, x ≠ j) :
    getRow (runFrom env st l).df j = getRow st.df j := by
  induction l generalizing st with
  | nil => rfl
  | cons i rest ih =>
    rw [runFrom, ih _ (fun x hx => h x (List.mem_cons_of_mem _ hx)),
      processRow_df_ne env st i j (fun he => h i (List.mem_cons_self _ _) he.symm)]

theorem runFrom_email (env : Env) (st : OState) (l : List Nat) (j : Nat) :
    (getRow (runFrom env st l).df j).email = (getRow st.df j).email := by
  induction l generalizing st with
  | nil => rfl
  | cons i rest ih => rw [runFrom, ih, processRow_email]

theorem runFrom_trace_append (env : Env) (st : OState) (l : List Nat) :
    ∃ ev, (runFrom env st l).trace = st.trace ++ ev := by
  induction l generalizing st with
  | nil => exact ⟨[], by simp [runFrom]⟩
  | cons i rest ih =>
    obtain ⟨ev1, h1⟩ := processRow_trace_append env st i
    obtain ⟨ev2, h2⟩ := ih (processRow env st i)
    exact ⟨ev1 ++ ev2, by rw [runFrom, h2, h1, List.append_assoc]⟩

theorem runFrom_trace_tag (env : Env) (st : OState) (l : List Nat) (j a : Nat)
    (h : Event.sendAttempt j a ∈ (runFrom env st l).trace) :
    Event.sendAttempt j a ∈ st.trace ∨ j ∈ l := by
  induction l generalizing st with
  | nil => exact Or.inl h
  | cons i rest ih =>
    rcases ih (processRow env st i) h with h2 | h2
    · rcases processRow_trace_tag env st i j a h2 with h3 | h3
      · exact Or.inl h3
      · exact Or.inr (h3 ▸ List.mem_cons_self _ _)
    · exact Or.inr (List.mem_cons_of_mem _ h2)

/-- An eligible row whose dedup key is registered before the loop reaches
it ends the run marked `SKIPPED_DUPLICATE`, and the loop adds no send
attempt for it. -/
theorem runFrom_range'_dup (env : Env) (j : Nat) :
    ∀ n s st, j < st.df.length → s ≤ j → j < s + n →
    row_is_skipped (pyStrip (getRow st.df j).status) = false →
    rowKey (getRow st.df j) ∈ st.processedKeys →
    getRow (runFrom env st (List.range' s n)).df j
        = { getRow st.df j with status := "SKIPPED_DUPLICATE" } ∧
    ∀ a, Event.sendAttempt j a ∈ (runFrom env st (List.range' s n)).trace →
      Event.sendAttempt j a ∈ st.trace := by
  intro n
  induction n with
  | zero =>
    intro s st h1 h2 h3 h4 h5
    omega
  | succ n ih =>
    intro s st h1 h2 h3 h4 h5
    rw [List.range'_succ]
    by_cases hsj : s = j
    · subst hsj
      have hdup := processRow_dup env st s h4 h5
      rw [runFrom, hdup]
      constructor
      · rw [runFrom_df_ne]
        · exact getRow_setStatus_self _ _ _ h1
        · intro x hx
          rw [List.mem_range'_1] at hx
          omega
      · intro a ha
        rcases runFrom_trace_tag env _ _ s a ha with h6 | h6
        · exact h6
        · rw [List.mem_range'_1] at h6
          omega
    · have hlt : s < j := by omega
      rw [runFrom]
      have hdf : getRow (processRow env st s).df j = getRow st.df j :=
        processRow_df_ne env st s j (by omega)
      have hlen : j < (processRow env st s).df.length := by
        rw [processRow_length]
        exact h1
      have h4' : row_is_skipped (pyStrip (getRow (processRow env st s).df j).status)
          = false := by rw [hdf]; exact h4
      have h5' : rowKey (getRow (processRow env st s).df j)
          ∈ (processRow env st s).processedKeys := by
        rw [hdf]
        exact processRow_keys_mono env st s _ h5
      obtain ⟨ha, hb⟩ := ih (s + 1) (processRow env st s) hlen (by omega) (by omega) h4' h5'
      refine ⟨by rw [ha, hdf], fun a hmem => ?_⟩
      rcases processRow_trace_tag env st s j a (hb a hmem) with h6 | h6
      · exact h6
      · omega

/-- Every index covered by the processed range ends with a non-empty
status. -/
theorem runFrom_range'_status (env : Env) (i : Nat) :
    ∀ n s st, i < st.df.length → s ≤ i → i < s + n →
    (getRow (runFrom env st (List.range' s n)).df i).status ≠ "" := by
  intro n
  induction n with
  | zero =>
    intro s st h1 h2 h3
    omega
  | succ n ih =>
    intro s st h1 h2 h3
    rw [List.range'_succ, runFrom]
    by_cases hsi : s = i
    · subst hsi
      rw [runFrom_df_ne]
      · exact processRow_status_filled env st s h1
      · intro x hx
        rw [List.mem_range'_1] at hx
        omega
    · exact ih (s + 1) (processRow env st s)
        (by rw [processRow_length]; exact h1) (by omega) (by omega)

/-- Splitting a step-1 range. -/
theorem range'_split (s m n : Nat) :
    List.range' s (m + n) = List.range' s m ++ List.range' (s + m) n := by
  have h := List.range'_append s m n 1
  simp only [Nat.one_mul] at h
  rw [Nat.add_comm n m] at h
  exact h.symm

/-- Every non-dedup outcome of an eligible row ends its iteration with a
write-back of the updated table (the last event appended is `writeSheet`
of the new in-memory table). -/
theorem processRow_outcome_write (env : Env) (st : OState) (idx : Nat)
    (h : row_is_skipped (pyStrip (getRow st.df idx).status) = false)
    (hk : rowKey (getRow st.df idx) ∉ st.processedKeys) :
    ∃ evs, (processRow env st idx).trace
        = st.trace ++ evs ++ [Event.writeSheet (processRow env st idx).df] := by
  have hk' : (pyLower (pyStrip (getRow st.df idx).email),
      pyLower (pyStrip (getRow st.df idx).jobRole),
      pyLower (pyStrip (getRow st.df idx).companyName)) ∉ st.processedKeys := by
    simpa [rowKey] using hk
  simp only [processRow, h, Bool.false_eq_true, if_false]
  rw [if_neg hk']
  split
  · exact ⟨[], by simp⟩
  · split
    · exact ⟨[], by simp⟩
    · exact ⟨_, rfl⟩

/-! ## Lemmas about resume selection -/

theorem heuristicScan_isFile (fs : FS) (key folder : String) :
    ∀ l p, heuristicScan fs key folder l = some p → fs.isFile p = true := by
  intro l
  induction l with
  | nil =>
    intro p h
    simp [heuristicScan] at h
  | cons fname rest ih =>
    intro p h
    simp only [heuristicScan] at h
    by_cases hf : fs.isFile (path_join folder fname) = true
    · rw [if_neg (by simp [hf])] at h
      by_cases hm : (key == heurJoined fname || key == heurName fname) = true
      · rw [if_pos hm] at h
        injection h with h2
        exact h2 ▸ hf
      · rw [if_neg hm] at h
        exact ih p h
    · have hf' : fs.isFile (path_join folder fname) = false := by
        cases hh : fs.isFile (path_join folder fname) with
        | false => rfl
        | true => exact absurd hh hf
      rw [if_pos (by simp [hf'])] at h
      exact ih p h

theorem heuristicScan_none (fs : FS) (key folder : String) :
    ∀ l, (∀ fname ∈ l, fs.isFile (path_join folder fname) = false ∨
        (key ≠ heurJoined fname ∧ key ≠ heurName fname)) →
    heuristicScan fs key folder l = none := by
  intro l
  induction l with
  | nil => intro _; rfl
  | cons fname rest ih =>
    intro hall
    have hrest : ∀ x ∈ rest, fs.isFile (path_join folder x) = false ∨
        (key ≠ heurJoined x ∧ key ≠ heurName x) :=
      fun x hx => hall x (List.mem_cons_of_mem _ hx)
    simp only [heuristicScan]
    rcases hall fname (List.mem_cons_self _ _) with hf | hnm
    · rw [if_pos (by simp [hf])]
      exact ih hrest
    · by_cases hf : fs.isFile (path_join folder fname) = true
      · rw [if_neg (by simp [hf])]
        rw [if_neg (by simp [hnm.1, hnm.2])]
        exact ih hrest
      · have hf' : fs.isFile (path_join folder fname) = false := by
          cases hh : fs.isFile (path_join folder fname) with
          | false => rfl
          | true => exact absurd hh hf
        rw [if_pos (by simp [hf'])]
        exact ih hrest

/-- Step 1 wins outright: a mapped role whose file exists resolves to the
mapped path, with the scan and the default never consulted. -/
theorem select_resume_mapped (resume_map : List (String × String)) (fs : FS)
    (job folder dflt p : String)
    (hm : resume_map.lookup (normalize_key job) = some p)
    (hf : fs.isFile p = true) :
    select_resume resume_map fs job folder dflt = some p := by
  simp [select_resume, hm, hf]

/-- When the role is unmapped and no directory entry matches the
heuristic (in either of its two forms), the result is the default resume
when that is set and exists, and `none` otherwise. -/
theorem select_resume_default (resume_map : List (String × String)) (fs : FS)
    (job folder dflt : String)
    (hm : resume_map.lookup (normalize_key job) = none)
    (hh : ∀ fname ∈ fs.listDir folder, fs.isFile (path_join folder fname) = false ∨
        (normalize_key job ≠ heurJoined fname ∧ normalize_key job ≠ heurName fname)) :
    select_resume resume_map fs job folder dflt
      = if dflt != "" && fs.isFile dflt then some dflt else none := by
  simp only [select_resume, hm]
  by_cases hd : fs.isDir folder = true
  · rw [if_pos hd, heuristicScan_none fs _ folder _ hh]
  · rw [if_neg hd]

/-- Every path `select_resume` returns exists on disk: all three steps
check with `os.path.isfile` before returning. -/
theorem select_resume_isFile (resume_map : List (String × String)) (fs : FS)
    (job folder dflt p : String)
    (h : select_resume resume_map fs job folder dflt = some p) :
    fs.isFile p = true := by
  simp only [select_resume] at h
  split at h
  · rename_i q heq
    injection h with h2
    subst h2
    split at heq
    · rename_i q2 hlook
      split at heq
      · rename_i hfq
        injection heq with h3
        exact h3 ▸ hfq
      · exact absurd heq (by simp)
    · exact absurd heq (by simp)
  · split at h
    · rename_i q heq
      injection h with h2
      split at heq
      · exact h2 ▸ heuristicScan_isFile fs _ folder _ q heq
      · exact absurd heq (by simp)
    · split at h
      · rename_i hcond
        injection h with h2
        subst h2
        exact (Bool.and_eq_true _ _ |>.mp hcond).2
      · exact absurd h (by simp)

/-! ## Lemmas about the validation pre-pass -/

theorem vpAux_fst (lib : EmailValidatorLib) :
    ∀ i df, (vpAux lib i df).1 = df.filterMap (fun r =>
      if (validate_email_address lib (pyStrip r.email)).1 then
        some { r with email := (validate_email_address lib (pyStrip r.email)).2.getD "" }
      else none) := by
  intro i df
  induction df generalizing i with
  | nil => simp [vpAux]
  | cons r rest ih =>
    simp only [vpAux, List.filterMap_cons]
    by_cases hv : (validate_email_address lib (pyStrip r.email)).1 = true
    · simp only [hv, if_true]
      simp [ih (i + 1)]
    · have hv' : (validate_email_address lib (pyStrip r.email)).1 = false := by
        cases hh : (validate_email_address lib (pyStrip r.email)).1 with
        | false => rfl
        | true => exact absurd hh hv
      simp only [hv', Bool.false_eq_true, if_false]
      simp [ih (i + 1)]

theorem vpAux_snd (lib : EmailValidatorLib) :
    ∀ i df, (vpAux lib i df).2 = (enumIdx i df).filterMap (fun p =>
      if (validate_email_address lib (pyStrip p.2.email)).1 then none
      else some (p.1, pyStrip p.2.email)) := by
  intro i df
  induction df generalizing i with
  | nil => simp [vpAux, enumIdx]
  | cons r rest ih =>
    simp only [vpAux, enumIdx, List.filterMap_cons]
    by_cases hv : (validate_email_address lib (pyStrip r.email)).1 = true
    · simp only [hv, if_true]
      simp [ih (i + 1)]
    · have hv' : (validate_email_address lib (pyStrip r.email)).1 = false := by
        cases hh : (validate_email_address lib (pyStrip r.email)).1 with
        | false => rfl
        | true => exact absurd hh hv
      simp only [hv', Bool.false_eq_true, if_false]
      simp [ih (i + 1)]

theorem processRow_invalidLog (env : Env) (st : OState) (idx : Nat) :
    (processRow env st idx).invalidLog = st.invalidLog := by
  simp only [processRow]
  split
  · rfl
  · split
    · rfl
    · split
      · rfl
      · split
        · rfl
        · rfl

theorem runFrom_invalidLog (env : Env) (st : OState) (l : List Nat) :
    (runFrom env st l).invalidLog = st.invalidLog := by
  induction l generalizing st with
  | nil => rfl
  | cons i rest ih => rw [runFrom, ih, processRow_invalidLog]

theorem pyUpper_eq_empty_iff (s : String) : pyUpper s = "" ↔ s = "" := by
  cases s with
  | mk data =>
    cases data with
    | nil => simp [pyUpper]
    | cons c cs => simp [pyUpper, String.ext_iff]

/-! ## Claims -/

/-- C6: a row whose Status (stripped) equals "SENT" case-insensitively,
or is non-empty and not PENDING/TO_SEND case-insensitively, is skipped
with the whole orchestrator state unchanged — its fields, the dedup keys,
the trace (hence no send attempt) are all exactly as before. -/
theorem claim_C6_skip_untouched (env : Env) (st : OState) (idx : Nat)
    (h : pyUpper (pyStrip (getRow st.df idx).status) = "SENT" ∨
      (pyStrip (getRow st.df idx).status ≠ "" ∧
        pyUpper (pyStrip (getRow st.df idx).status) ≠ "PENDING" ∧
        pyUpper (pyStrip (getRow st.df idx).status) ≠ "TO_SEND")) :
    processRow env st idx = st := by
  apply processRow_skipped
  rcases h with h | ⟨h1, h2, h3⟩
  · simp [row_is_skipped, h]
  · have h4 : pyUpper (pyStrip (getRow st.df idx).status) ≠ "" :=
      fun he => h1 ((pyUpper_eq_empty_iff _).mp he)
    simp [row_is_skipped, h1, h2, h3, h4]

theorem claim_C6_skip_untouched_witness :
    processRow envT (stRow rowSent) 0 = stRow rowSent :=
  claim_C6_skip_untouched envT (stRow rowSent) 0 (Or.inl (by decide))

/-- C9: every path returned by `select_resume` refers to a file that
exists in the filesystem snapshot, and the heuristic scan in particular
only ever returns paths it has verified with `os.path.isfile`. -/
theorem claim_C9_resume_paths_exist (resume_map : List (String × String)) (fs : FS)
    (job folder dflt p : String) (l : List String) :
    (select_resume resume_map fs job folder dflt = some p → fs.isFile p = true) ∧
    (heuristicScan fs (normalize_key job) folder l = some p → fs.isFile p = true) :=
  ⟨fun h => select_resume_isFile resume_map fs job folder dflt p h,
    fun h => heuristicScan_isFile fs (normalize_key job) folder l p h⟩

theorem claim_C9_resume_paths_exist_witness :
    fsT.isFile "r.pdf" = true :=
  (claim_C9_resume_paths_exist [] fsT "dev" "resumes" "r.pdf" "r.pdf" []).1 (by decide)

/-- C10: rows skipped because of their existing Status register no dedup
key (the state, `processedKeys` included, is unchanged), and consequently
a later eligible row with the same (email, job role, company) as an
earlier already-SENT row is not marked SKIPPED_DUPLICATE: in the
two-row scenario below the second row ends SENT and its send attempt is
actually made. -/
theorem claim_C10_skipped_rows_register_no_key :
    (∀ (env : Env) (st : OState) (idx : Nat),
      row_is_skipped (pyStrip (getRow st.df idx).status) = true →
      (processRow env st idx).processedKeys = st.processedKeys ∧
      processRow env st idx = st) ∧
    ((process_sheet_and_send envT [rowSent, rowElig]).df.map Row.status
        = ["SENT", "SENT"] ∧
      Event.sendAttempt 1 1 ∈ (process_sheet_and_send envT [rowSent, rowElig]).trace) := by
  constructor
  · intro env st idx h
    exact ⟨by rw [processRow_skipped env st idx h], processRow_skipped env st idx h⟩
  · constructor
    · decide
    · decide

theorem claim_C10_skipped_rows_register_no_key_witness :
    (processRow envT (stRow rowSent) 0).processedKeys = (stRow rowSent).processedKeys :=
  ((claim_C10_skipped_rows_register_no_key).1 envT (stRow rowSent) 0 (by decide)).1

/-- C4 counterexample: for the job role "a_b" — absent from the mapping,
and with no folder file whose underscores-replaced stem equals the role
("a_b.pdf" becomes "a b") — the claim predicts the existing default
resume, but the scan also compares the raw lowercased stem
(`key == name`), matches "a_b", and returns the folder file instead. -/
theorem claim_C4_counterexample :
    List.lookup (normalize_key "a_b") ([] : List (String × String)) = none ∧
    fsUnderscore.listDir "resumes" = ["a_b.pdf"] ∧
    normalize_key "a_b" ≠ heurJoined "a_b.pdf" ∧
    fsUnderscore.isFile "resumes/default.pdf" = true ∧
    select_resume [] fsUnderscore "a_b" "resumes" "resumes/default.pdf"
      = some "resumes/a_b.pdf" ∧
    ("resumes/a_b.pdf" : String) ≠ "resumes/default.pdf" := by decide

/-- C4 amended: the mapped-path clause is as claimed; the fallback
clause additionally requires that no folder file matches the raw
lowercased stem either (the scan tests `key == joined or key == name`):
when the role is unmapped and no directory entry matches in either form,
the default resume is returned when set and existing, else no resume. -/
theorem claim_C4_resolution_order (resume_map : List (String × String)) (fs : FS)
    (job folder dflt p : String) :
    (resume_map.lookup (normalize_key job) = some p → fs.isFile p = true →
      select_resume resume_map fs job folder dflt = some p) ∧
    (resume_map.lookup (normalize_key job) = none →
      (∀ fname ∈ fs.listDir folder, fs.isFile (path_join folder fname) = false ∨
        (normalize_key job ≠ heurJoined fname ∧ normalize_key job ≠ heurName fname)) →
      select_resume resume_map fs job folder dflt
        = if dflt != "" && fs.isFile dflt then some dflt else none) :=
  ⟨fun hm hf => select_resume_mapped resume_map fs job folder dflt p hm hf,
    fun hm hh => select_resume_default resume_map fs job folder dflt hm hh⟩

theorem claim_C4_resolution_order_witness :
    select_resume [("a_b", "resumes/a_b.pdf")] fsUnderscore "A_B" "resumes"
        "resumes/default.pdf" = some "resumes/a_b.pdf" ∧
    select_resume [] fsUnderscore "product manager" "resumes" "resumes/default.pdf"
        = some "resumes/default.pdf" := by
  constructor
  · exact (claim_C4_resolution_order [("a_b", "resumes/a_b.pdf")] fsUnderscore "A_B"
      "resumes" "resumes/default.pdf" "resumes/a_b.pdf").1 (by decide) (by decide)
  · have h := (claim_C4_resolution_order [] fsUnderscore "product manager" "resumes"
      "resumes/default.pdf" "").2 (by decide) (by decide)
    rw [h]
    decide

/-- C2 counterexample: a syntactically valid address whose deliverability
check fails with the library's `EmailUndeliverableError` (an
`EmailNotValidError`) is caught by the first `except` clause and yields
`(False, None)` — the syntax-only retry is never reached, contradicting
both halves of the claim. -/
theorem claim_C2_counterexample :
    libUndeliverable.syntaxOnly "user@no-such-domain.example"
      = .ok "user@no-such-domain.example" ∧
    validate_email_address libUndeliverable "user@no-such-domain.example"
      = (false, none) := by
  constructor
  · rfl
  · rfl

/-- C2 amended: the syntax-only fallback runs only when strict validation
fails with an exception that is *not* an `EmailNotValidError` (e.g. the
deliverability machinery itself erroring out); when the strict call
raises `EmailNotValidError` — which includes deliverability rejections —
the function returns `(False, None)` even for a syntactically valid
address.  In full: strict success returns the strict normalization;
`EmailNotValidError` returns `(False, None)`; any other strict failure
falls back to syntax-only validation, returning its normalization on
success and `(False, None)` on failure. -/
theorem claim_C2_validator_fallback (lib : EmailValidatorLib) (addr n : String)
    (hne : pyStrip addr ≠ "") :
    (lib.strict addr = .ok n → validate_email_address lib addr = (true, some n)) ∧
    (lib.strict addr = .notValidError →
      validate_email_address lib addr = (false, none)) ∧
    (lib.strict addr = .otherError → lib.syntaxOnly addr = .ok n →
      validate_email_address lib addr = (true, some n)) ∧
    (lib.strict addr = .otherError → lib.syntaxOnly addr = .err →
      validate_email_address lib addr = (false, none)) := by
  have haddr : addr ≠ "" := by
    intro he
    rw [he, pyStrip_empty] at hne
    exact hne rfl
  have hcond : ¬(addr = "" ∨ pyStrip addr = "") := by
    rintro (h | h)
    · exact haddr h
    · exact hne h
  refine ⟨fun h1 => ?_, fun h1 => ?_, fun h1 h2 => ?_, fun h1 h2 => ?_⟩ <;>
    simp [validate_email_address, if_neg hcond, h1]
  · rw [h2]
  · rw [h2]

theorem claim_C2_validator_fallback_witness :
    validate_email_address libDnsDown "ok@example.com"
      = (true, some "ok@example.com") :=
  (claim_C2_validator_fallback libDnsDown "ok@example.com" "ok@example.com"
    (by decide)).2.2.1 rfl rfl

/-- C7: whenever `resume_path` is not an existing file,
`build_email_message` fails with a FileNotFound-class error (every error
the function can raise — template open, resume check, cover open — is one),
regardless of inline images or cover letter; and a successfully built
message always has the resume verified on disk and attached. -/
theorem claim_C7_compose_requires_resume (fs : FS) (pick : Nat) (coin : Bool)
    (to_email : String) (to_name : Option String) (job company resume_path : String)
    (cover_path : Option String) (cover_is_pdf : Bool)
    (sender_name sender_email where_found : String) :
    (fs.isFile resume_path = false →
      ∃ p, build_email_message fs pick coin to_email to_name job company resume_path
          cover_path cover_is_pdf sender_name sender_email where_found
        = .error (.fileNotFound p)) ∧
    (∀ m, build_email_message fs pick coin to_email to_name job company resume_path
          cover_path cover_is_pdf sender_name sender_email where_found = .ok m →
      fs.isFile resume_path = true ∧ resume_path ∈ m.attachments) := by
  constructor
  · intro h
    cases hr : render_html_template fs pick job company to_name with
    | error e =>
      cases e with
      | fileNotFound p =>
        exact ⟨p, by simp [build_email_message, hr]⟩
    | ok html =>
      exact ⟨resume_path, by simp [build_email_message, hr, h]⟩
  · intro m hm
    cases hr : render_html_template fs pick job company to_name with
    | error e =>
      simp [build_email_message, hr] at hm
    | ok html =>
      by_cases hf : fs.isFile resume_path = true
      · refine ⟨hf, ?_⟩
        cases cover_path with
        | none =>
          simp [build_email_message, hr, hf] at hm
          rw [← hm]
          simp
        | some cp =>
          by_cases hcp : cp = ""
          · subst hcp
            simp [build_email_message, hr, hf] at hm
            rw [← hm]
            simp
          · by_cases hfc : fs.isFile cp = true
            · simp [build_email_message, hr, hf, hcp, hfc] at hm
              rw [← hm]
              simp
            · have hfc' : fs.isFile cp = false := by
                cases hh : fs.isFile cp with
                | false => rfl
                | true => exact absurd hh hfc
              simp [build_email_message, hr, hf, hcp, hfc'] at hm
      · have hf' : fs.isFile resume_path = false := by
          cases hh : fs.isFile resume_path with
          | false => rfl
          | true => exact absurd hh hf
        simp [build_email_message, hr, hf'] at hm

theorem claim_C7_compose_requires_resume_witness :
    (build_email_message fsNoResume 0 true "a@b.com" none "dev" "acme" "missing.pdf"
        none false "S" "s@x.com" "W").isOk = false := by
  obtain ⟨p, hp⟩ := (claim_C7_compose_requires_resume fsNoResume 0 true "a@b.com" none
    "dev" "acme" "missing.pdf" none false "S" "s@x.com" "W").1 (by decide)
  rw [hp]
  rfl

/-- C1: the send loop makes at most `max_retries` attempts and stops at
the first success; it succeeds iff some attempt succeeded (the row is then
marked SENT, else FAILED — see the two concrete orchestrator runs in the
last two conjuncts); a retry sleep follows every failed attempt except the
last allowed one, so sleeps number `attempts - 1` on success and
`max_retries - 1` on exhaustion; failing twice then succeeding under
`max_retries = 3` gives 3 attempts and 2 sleeps and SENT, and always
failing under `max_retries = 2` gives 2 attempts (1 sleep) and FAILED. -/
theorem claim_C1_send_retry_loop :
    (∀ (t : Nat → Bool) (maxR idx : Nat),
      (sendLoop t maxR idx).attempts ≤ maxR ∧
      ((sendLoop t maxR idx).sent = true ↔
        ∃ k, 0 < k ∧ k ≤ (sendLoop t maxR idx).attempts ∧ t k = true) ∧
      ((sendLoop t maxR idx).sent = true →
        t (sendLoop t maxR idx).attempts = true ∧
        ∀ k, 0 < k → k < (sendLoop t maxR idx).attempts → t k = false) ∧
      ((sendLoop t maxR idx).sent = false →
        (sendLoop t maxR idx).attempts = maxR ∧
        ∀ k, 0 < k → k ≤ maxR → t k = false) ∧
      ((sendLoop t maxR idx).sleeps =
        if (sendLoop t maxR idx).sent then (sendLoop t maxR idx).attempts - 1
        else maxR - 1)) ∧
    ((sendLoop tFailTwice 3 0).sent = true ∧ (sendLoop tFailTwice 3 0).attempts = 3 ∧
      (sendLoop tFailTwice 3 0).sleeps = 2) ∧
    ((sendLoop tAlwaysFail 2 0).sent = false ∧ (sendLoop tAlwaysFail 2 0).attempts = 2 ∧
      (sendLoop tAlwaysFail 2 0).sleeps = 1) ∧
    (getRow (processRow (envSend tFailTwice 3) (stRow rowElig) 0).df 0).status = "SENT" ∧
    (getRow (processRow (envSend tAlwaysFail 2) (stRow rowElig) 0).df 0).status
      = "FAILED" := by
  refine ⟨?_, by decide, by decide, by decide, by decide⟩
  intro t maxR idx
  obtain ⟨h1, h2, h3, h4⟩ := sendLoop_spec t maxR idx
  refine ⟨h1, ?_, fun hs => ⟨(h2 hs).2.1, (h2 hs).2.2⟩, h3, h4⟩
  constructor
  · intro hs
    obtain ⟨hpos, hsucc, _⟩ := h2 hs
    exact ⟨(sendLoop t maxR idx).attempts, hpos, le_refl _, hsucc⟩
  · rintro ⟨k, hk0, hkle, hkt⟩
    by_contra hns
    have hs' : (sendLoop t maxR idx).sent = false := by
      cases hh : (sendLoop t maxR idx).sent with
      | false => rfl
      | true => exact absurd hh hns
    obtain ⟨hA, hall⟩ := h3 hs'
    have hkm : k ≤ maxR := hA ▸ hkle
    have hfk := hall k hk0 hkm
    rw [hfk] at hkt
    exact absurd hkt (by decide)

theorem claim_C1_send_retry_loop_witness :
    tFailTwice (sendLoop tFailTwice 3 0).attempts = true :=
  ((claim_C1_send_retry_loop.1 tFailTwice 3 0).2.2.1 (by decide)).1

/-- C8: before the row loop, validation removes exactly the rows whose
stripped Email fails `validate_email_address` (first two conjuncts give
the surviving table and the removed `(index, email)` pairs in closed
form); the removed rows are recorded in the side-channel log with the
timestamp and original row index; when anything was removed the cleaned
table is written back before any other event (in particular before any
send); and surviving rows keep their normalized Email for the rest of the
run — the row loop never modifies the Email column. -/
theorem claim_C8_validation_prepass (env : Env) (df0 : List Row) (hne : df0 ≠ []) :
    (validationPass env.lib df0).1 = df0.filterMap (fun r =>
      if (validate_email_address env.lib (pyStrip r.email)).1 then
        some { r with email := (validate_email_address env.lib (pyStrip r.email)).2.getD "" }
      else none) ∧
    (validationPass env.lib df0).2 = (enumIdx 0 df0).filterMap (fun q =>
      if (validate_email_address env.lib (pyStrip q.2.email)).1 then none
      else some (q.1, pyStrip q.2.email)) ∧
    (process_sheet_and_send env df0).invalidLog
      = (validationPass env.lib df0).2.map (fun q => (env.now, q.1, q.2)) ∧
    ((validationPass env.lib df0).2 ≠ [] → ∃ rest,
      (process_sheet_and_send env df0).trace
        = Event.writeSheet (validationPass env.lib df0).1 :: rest) ∧
    (∀ i, (getRow (process_sheet_and_send env df0).df i).email
      = (getRow (validationPass env.lib df0).1 i).email) := by
  have hemp : df0.isEmpty = false := by
    cases df0 with
    | nil => exact absurd rfl hne
    | cons a l => rfl
  have hps : process_sheet_and_send env df0 = runFrom env
      { df := (validationPass env.lib df0).1
        processedKeys := []
        trace := if (validationPass env.lib df0).2.isEmpty then []
          else [Event.writeSheet (validationPass env.lib df0).1]
        invalidLog := (validationPass env.lib df0).2.map (fun q => (env.now, q.1, q.2)) }
      (List.range (validationPass env.lib df0).1.length) := by
    simp [process_sheet_and_send, hemp]
  refine ⟨vpAux_fst env.lib 0 df0, vpAux_snd env.lib 0 df0, ?_, ?_, ?_⟩
  · rw [hps, runFrom_invalidLog]
  · intro hinv
    have hinv' : (validationPass env.lib df0).2.isEmpty = false := by
      cases hI : (validationPass env.lib df0).2 with
      | nil => exact absurd hI hinv
      | cons a l => rfl
    obtain ⟨ev, hev⟩ := runFrom_trace_append env
      { df := (validationPass env.lib df0).1
        processedKeys := []
        trace := if (validationPass env.lib df0).2.isEmpty then []
          else [Event.writeSheet (validationPass env.lib df0).1]
        invalidLog := (validationPass env.lib df0).2.map (fun q => (env.now, q.1, q.2)) }
      (List.range (validationPass env.lib df0).1.length)
    refine ⟨ev, ?_⟩
    rw [hps, hev]
    simp [hinv']
  · intro i
    rw [hps, runFrom_email]

theorem claim_C8_validation_prepass_witness :
    (process_sheet_and_send envInv [rowBad, rowElig]).invalidLog = [("T", 0, "bad")] := by
  have h := claim_C8_validation_prepass envInv [rowBad, rowElig] (by decide)
  rw [h.2.2.1]
  decide

/-- C5 counterexample: in a two-row run whose second row is an in-run
duplicate, the duplicate's decided outcome (SKIPPED_DUPLICATE) is never
persisted: the complete trace holds exactly one write-back, performed
during row 0's processing, and the table it carries still shows row 1
with its original empty Status.  The `continue` in the duplicate branch
skips the write that the claim requires for every outcome. -/
theorem claim_C5_counterexample :
    (getRow (process_sheet_and_send envT [rowElig, rowElig]).df 1).status
      = "SKIPPED_DUPLICATE" ∧
    (process_sheet_and_send envT [rowElig, rowElig]).trace
      = [Event.sendAttempt 0 1,
         Event.writeSheet [{ rowElig with status := "SENT" }, rowElig]] := by
  constructor
  · decide
  · decide

/-- C5 amended: after an eligible row's outcome is decided the full table
is persisted before the next row for the outcomes SENT, FAILED,
SKIPPED_NO_RESUME and FAILED_BUILD_MESSAGE (first conjunct: the
iteration's trace ends with a write-back of the updated table) — but not
for SKIPPED_DUPLICATE, whose branch changes only the in-memory status and
emits no event (second conjunct); and once the run completes every row of
the in-memory table has a non-empty Status (third conjunct). -/
theorem claim_C5_persistence_and_completion :
    (∀ (env : Env) (st : OState) (idx : Nat),
      row_is_skipped (pyStrip (getRow st.df idx).status) = false →
      rowKey (getRow st.df idx) ∉ st.processedKeys →
      ∃ evs, (processRow env st idx).trace
        = st.trace ++ evs ++ [Event.writeSheet (processRow env st idx).df]) ∧
    (∀ (env : Env) (st : OState) (idx : Nat),
      row_is_skipped (pyStrip (getRow st.df idx).status) = false →
      rowKey (getRow st.df idx) ∈ st.processedKeys →
      processRow env st idx
        = { st with df := setStatus st.df idx "SKIPPED_DUPLICATE" }) ∧
    (∀ (env : Env) (df0 : List Row) (i : Nat),
      i < (process_sheet_and_send env df0).df.length →
      (getRow (process_sheet_and_send env df0).df i).status ≠ "") := by
  refine ⟨processRow_outcome_write, processRow_dup, ?_⟩
  intro env df0 i hlen
  by_cases hemp : df0.isEmpty = true
  · have hnil : df0 = [] := by
      cases df0 with
      | nil => rfl
      | cons a l => simp at hemp
    subst hnil
    simp [process_sheet_and_send] at hlen
  · have hemp' : df0.isEmpty = false := by
      cases hh : df0.isEmpty with
      | false => rfl
      | true => exact absurd hh hemp
    have hps : process_sheet_and_send env df0 = runFrom env
        { df := (validationPass env.lib df0).1
          processedKeys := []
          trace := if (validationPass env.lib df0).2.isEmpty then []
            else [Event.writeSheet (validationPass env.lib df0).1]
          invalidLog := (validationPass env.lib df0).2.map (fun q => (env.now, q.1, q.2)) }
        (List.range (validationPass env.lib df0).1.length) := by
      simp [process_sheet_and_send, hemp']
    rw [hps] at hlen ⊢
    rw [runFrom_length] at hlen
    rw [List.range_eq_range']
    exact runFrom_range'_status env i (validationPass env.lib df0).1.length 0 _
      hlen (Nat.zero_le i) (by simpa using hlen)

theorem claim_C5_persistence_and_completion_witness :
    (getRow (process_sheet_and_send envT [rowElig, rowElig]).df 0).status ≠ "" :=
  claim_C5_persistence_and_completion.2.2 envT [rowElig, rowElig] 0 (by decide)

/-- Core dedup argument over the row loop: if rows `i < j` are both
eligible and share a dedup key, then after running all indices row `j` is
marked SKIPPED_DUPLICATE and no send attempt for `j` was added. -/
theorem runFrom_dedup_main (env : Env) (st0 : OState) (i j : Nat)
    (hij : i < j) (hj : j < st0.df.length)
    (hei : row_is_skipped (pyStrip (getRow st0.df i).status) = false)
    (hej : row_is_skipped (pyStrip (getRow st0.df j).status) = false)
    (hkey : rowKey (getRow st0.df i) = rowKey (getRow st0.df j))
    (htr : ∀ a, Event.sendAttempt j a ∉ st0.trace) :
    (getRow (runFrom env st0 (List.range st0.df.length)).df j).status
      = "SKIPPED_DUPLICATE" ∧
    ∀ a, Event.sendAttempt j a ∉ (runFrom env st0 (List.range st0.df.length)).trace := by
  have hsplit1 : List.range st0.df.length
      = List.range' 0 (i + 1) ++ List.range' (i + 1) (st0.df.length - (i + 1)) := by
    rw [List.range_eq_range']
    conv_lhs => rw [show st0.df.length = (i + 1) + (st0.df.length - (i + 1)) by omega]
    simpa using range'_split 0 (i + 1) (st0.df.length - (i + 1))
  have hmid1 : runFrom env st0 (List.range' 0 (i + 1))
      = processRow env (runFrom env st0 (List.range' 0 i)) i := by
    have h2 : List.range' 0 (i + 1) = List.range' 0 i ++ [i] := by
      simpa using range'_split 0 i 1
    rw [h2, runFrom_append]
    rfl
  have hrowI : getRow (runFrom env st0 (List.range' 0 i)).df i = getRow st0.df i := by
    apply runFrom_df_ne
    intro x hx
    rw [List.mem_range'_1] at hx
    omega
  have hkeyM : rowKey (getRow st0.df j)
      ∈ (processRow env (runFrom env st0 (List.range' 0 i)) i).processedKeys := by
    have h := processRow_keys_after env (runFrom env st0 (List.range' 0 i)) i
      (by rw [hrowI]; exact hei)
    rw [hrowI] at h
    rw [← hkey]
    exact h
  have hrowJM : getRow (processRow env (runFrom env st0 (List.range' 0 i)) i).df j
      = getRow st0.df j := by
    rw [processRow_df_ne env _ i j (by omega)]
    apply runFrom_df_ne
    intro x hx
    rw [List.mem_range'_1] at hx
    omega
  have hlenM : (processRow env (runFrom env st0 (List.range' 0 i)) i).df.length
      = st0.df.length := by
    rw [processRow_length, runFrom_length]
  have hrun : runFrom env st0 (List.range st0.df.length)
      = runFrom env (processRow env (runFrom env st0 (List.range' 0 i)) i)
          (List.range' (i + 1) (st0.df.length - (i + 1))) := by
    rw [hsplit1, runFrom_append, hmid1]
  obtain ⟨ha, hb⟩ := runFrom_range'_dup env j (st0.df.length - (i + 1)) (i + 1)
    (processRow env (runFrom env st0 (List.range' 0 i)) i)
    (by rw [hlenM]; exact hj) (by omega) (by omega)
    (by rw [hrowJM]; exact hej) (by rw [hrowJM]; exact hkeyM)
  constructor
  · rw [hrun, ha, hrowJM]
  · intro a hmem
    rw [hrun] at hmem
    have h1 := hb a hmem
    rcases processRow_trace_tag env _ i j a h1 with h2 | h2
    · rcases runFrom_trace_tag env st0 _ j a h2 with h3 | h3
      · exact htr a h3
      · rw [List.mem_range'_1] at h3
        omega
    · omega

/-- C3: among the rows processed in one run (the table remaining after
the validation pre-pass), if two eligible rows have the same dedup key —
(email, job role, company), each stripped and lowercased — then the later
row is marked SKIPPED_DUPLICATE and no send attempt (no SMTP call) is
ever made for it. -/
theorem claim_C3_inrun_dedup (env : Env) (df0 : List Row) (i j : Nat)
    (hij : i < j) (hj : j < (validationPass env.lib df0).1.length)
    (hei : row_is_skipped (pyStrip (getRow (validationPass env.lib df0).1 i).status)
      = false)
    (hej : row_is_skipped (pyStrip (getRow (validationPass env.lib df0).1 j).status)
      = false)
    (hkey : rowKey (getRow (validationPass env.lib df0).1 i)
      = rowKey (getRow (validationPass env.lib df0).1 j)) :
    (getRow (process_sheet_and_send env df0).df j).status = "SKIPPED_DUPLICATE" ∧
    ∀ a, Event.sendAttempt j a ∉ (process_sheet_and_send env df0).trace := by
  have hemp : df0.isEmpty = false := by
    cases df0 with
    | nil => simp [validationPass, vpAux] at hj
    | cons a l => rfl
  have hps : process_sheet_and_send env df0 = runFrom env
      { df := (validationPass env.lib df0).1
        processedKeys := []
        trace := if (validationPass env.lib df0).2.isEmpty then []
          else [Event.writeSheet (validationPass env.lib df0).1]
        invalidLog := (validationPass env.lib df0).2.map (fun q => (env.now, q.1, q.2)) }
      (List.range (validationPass env.lib df0).1.length) := by
    simp [process_sheet_and_send, hemp]
  rw [hps]
  exact runFrom_dedup_main env
    { df := (validationPass env.lib df0).1
      processedKeys := []
      trace := if (validationPass env.lib df0).2.isEmpty then []
        else [Event.writeSheet (validationPass env.lib df0).1]
      invalidLog := (validationPass env.lib df0).2.map (fun q => (env.now, q.1, q.2)) }
    i j hij hj hei hej hkey
    (by
      intro a ha
      by_cases hI : (validationPass env.lib df0).2.isEmpty = true
      · simp [hI] at ha
      · have hI' : (validationPass env.lib df0).2.isEmpty = false := by
          cases hh : (validationPass env.lib df0).2.isEmpty with
          | false => rfl
          | true => exact absurd hh hI
        simp [hI'] at ha)

theorem claim_C3_inrun_dedup_witness :
    (getRow (process_sheet_and_send envT [rowElig, rowElig2]).df 1).status
      = "SKIPPED_DUPLICATE" ∧
    Event.sendAttempt 1 1 ∉ (process_sheet_and_send envT [rowElig, rowElig2]).trace := by
  have h := claim_C3_inrun_dedup envT [rowElig, rowElig2] 0 1 (by decide) (by decide)
    (by decide) (by decide) (by decide)
  exact ⟨h.1, h.2 1⟩
